import Mathlib

/-!
Verification of the DCapture capture-session controller and its encoder
backends (DCapture.js, DCFrameEncoder.js, DCTarEncoder.js, DCWhammyEncoder.js,
DCPNGEncoder.js, DCJPEGEncoder.js, DCGIFEncoder.js, DCMediaRecorderEncoder.js).

The embedding is shallow: each JavaScript class is translated into a Lean
structure holding its mutable fields, and each method into a pure function on
that structure.  Fallible operations (a `throw` reaching the caller) return
`Except String _`; an uncaught exception inside an asynchronous callback is
modelled by `Option` (`none` = the callback crashed).  Calls the controller
makes into its encoder (`encoder.add`) and calls an encoder makes into its
event handlers are recorded in explicit logs so that claims about call counts
and call order can be stated.
-/

/-- Decidable equality for `Except`, so that concrete runs of the fallible
operations can be settled by `decide`. -/
instance exceptDecEq {ε α : Type} [DecidableEq ε] [DecidableEq α] :
    DecidableEq (Except ε α) := fun x y =>
  match x, y with
  | .ok a, .ok b =>
    if h : a = b then isTrue (by rw [h]) else isFalse (by simp [h])
  | .error a, .error b =>
    if h : a = b then isTrue (by rw [h]) else isFalse (by simp [h])
  | .ok _, .error _ => isFalse (fun hc => Except.noConfusion hc)
  | .error _, .ok _ => isFalse (fun hc => Except.noConfusion hc)

namespace DCapture

/-- The settings record merged over defaults in the `DCapture` constructor
(DCapture.js lines 39-54).  Fields that have no effect on the verified
behaviour (verbose, display, workersPath, onProgress) are omitted; `quality`
is kept for the encoder models.  JavaScript numbers used in comparisons are
modelled as `ℚ`. -/
structure CaptureSettings where
  framerate : ℚ := 60
  motionBlurFrames : ℕ := 0
  quality : ℚ := 100
  timeLimit : ℚ := 0
  frameLimit : ℕ := 0
  autoSaveTime : ℚ := 0
deriving DecidableEq

/-- The mutable state of a `DCapture` session (DCapture.js lines 56-76),
instrumented with a log of the frames forwarded to `this.encoder.add` and a
count of the `stop().then(() => this.save())` schedulings, so that the claims
about encoder invocations and auto-save can be stated.  A frame (canvas) is
identified by a natural number.  `encoderPresent` is true while
`this.encoder` is non-null. -/
structure Session where
  settings : CaptureSettings
  startTime : ℕ := 0
  frames : ℕ := 0
  stopped : Bool := false
  encoderPresent : Bool := true
  addLog : List ℕ := []
  savesScheduled : ℕ := 0
deriving DecidableEq

/-- Successful construction of a `DCapture` (constructor, DCapture.js lines
37-77): counters zeroed, `stopped = false`, an encoder created. -/
def mkSession (st : CaptureSettings) : Session :=
  { settings := st }

/-- `DCapture.start` (DCapture.js lines 224-235): records the start time,
resets the frame counter, starts the encoder and fires the callback.  It does
not reset `stopped`. -/
def start (s : Session) (now : ℕ) : Session :=
  { s with startTime := now, frames := 0 }

/-- The synchronous effect of `DCapture.stop` (DCapture.js line 242):
`this.stopped = true` happens before any asynchronous continuation runs. -/
def stopSync (s : Session) : Session :=
  { s with stopped := true }

/-- `DCapture.dispose` (DCapture.js lines 328-341): tears down the display
and the encoder; `this.encoder = null`.  `stopped` is left untouched. -/
def dispose (s : Session) : Session :=
  { s with encoderPresent := false }

/-- `DCapture.capture` (DCapture.js lines 265-298) together with
`captureMotionBlur` (lines 305-310), evaluated at wall-clock time `now`
(milliseconds, the model of `Date.now()`):
* if `stopped`, return immediately;
* if the encoder is null, throw `'No encoder available'`;
* if `motionBlurFrames > 1`, `captureMotionBlur` increments `frames` and
  forwards the frame to the encoder — it performs no limit checks;
* otherwise increment `frames`, forward the frame, then check the time limit
  (`(Date.now() - startTime) / 1000 >= timeLimit`) and then the frame limit
  (`frames >= frameLimit`); each check that fires runs
  `this.stop().then(() => this.save())`, which sets `stopped` synchronously
  and schedules one save. -/
def capture (s : Session) (frame : ℕ) (now : ℕ) : Except String Session :=
  if s.stopped then .ok s
  else if s.encoderPresent then
    if s.settings.motionBlurFrames > 1 then
      .ok { s with frames := s.frames + 1, addLog := s.addLog ++ [frame] }
    else
      let s1 : Session := { s with frames := s.frames + 1, addLog := s.addLog ++ [frame] }
      let s2 : Session :=
        if s1.settings.timeLimit > 0 ∧
            ((now - s1.startTime : ℕ) : ℚ) / 1000 ≥ s1.settings.timeLimit then
          { s1 with stopped := true, savesScheduled := s1.savesScheduled + 1 }
        else s1
      let s3 : Session :=
        if s2.settings.frameLimit > 0 ∧ s2.frames ≥ s2.settings.frameLimit then
          { s2 with stopped := true, savesScheduled := s2.savesScheduled + 1 }
        else s2
      .ok s3
  else .error "No encoder available"

/-- A sequence of `capture` calls, each given as a pair (frame, wall-clock
time of the call). -/
def captureSeq (s : Session) (l : List (ℕ × ℕ)) : Except String Session :=
  match l with
  | [] => .ok s
  | p :: rest =>
    match capture s p.1 p.2 with
    | .ok s1 => captureSeq s1 rest
    | .error e => .error e


/-- Whether a call outcome is a thrown exception. -/
def isError {α : Type} (r : Except String α) : Bool :=
  match r with
  | .error _ => true
  | .ok _ => false

end DCapture

namespace DCTar

/-- `pad` (DCFrameEncoder.js lines 432-435): decimal string of `n`,
left-padded with zeros to `width` characters (default 6); numbers whose
decimal form is already at least `width` characters are returned as is. -/
def pad (n : ℕ) (width : ℕ := 6) : String :=
  let s := toString n
  if s.length ≥ width then s
  else String.mk (List.replicate (width - s.length) '0') ++ s

/-- The settings a `DCTarEncoder` reads: `framerate` and `autoSaveTime` from
the session settings, and the file extension the subclass configured in its
constructor (`''` for the plain tar encoder, `'.png'` for `DCPNGEncoder`,
`'.jpg'` for `DCJPEGEncoder`). -/
structure TarSettings where
  framerate : ℚ
  autoSaveTime : ℚ
  fileExtension : String
deriving DecidableEq

/-- The mutable state of a `DCTarEncoder` (constructor, DCTarEncoder.js lines
12-24), instrumented with the list of artifacts already delivered by
auto-save rotations.  The tape is modelled as the list of entry names
appended to it, `none` while `this.tape` is null; an artifact is the entry
list of the archive it serialized. -/
structure TarState where
  tape : Option (List String) := none
  count : ℕ := 0
  part : ℕ := 1
  frames : ℕ := 0
  saved : List (List String) := []
deriving DecidableEq

/-- The state of a freshly constructed `DCTarEncoder`: no tape yet. -/
def tarInit : TarState := {}

/-- `DCTarEncoder.dispose` (DCTarEncoder.js lines 98-108): tries
`this.tape = new Tar()` and `this.count = 0`; when the `Tar` library is
unavailable (`av = false`) the constructor throws, the assignments do not
happen and an `error` event is emitted (the state is unchanged). -/
def tarDispose (av : Bool) (s : TarState) : TarState :=
  if av then { s with tape := some [], count := 0 } else s

/-- `DCTarEncoder.start` (DCTarEncoder.js lines 29-31): delegates to
`dispose`, discarding any prior archive. -/
def tarStart (av : Bool) (s : TarState) : TarState :=
  tarDispose av s

/-- The `FileReader.onload` completion of `DCTarEncoder.add` (DCTarEncoder.js
lines 37-79), for a blob that read successfully.  `none` models the uncaught
`TypeError` thrown inside the callback when `this.tape` is null.  Otherwise
the entry `pad(count) + fileExtension` is appended; then, if
`autoSaveTime > 0` and `frames / framerate >= autoSaveTime`, the encoder
saves the archive (delivering it as an artifact), disposes, restores
`count = old count + 1`, increments `part` and zeroes `frames`; otherwise
`count` and `frames` are simply incremented. -/
def tarAdd (cfg : TarSettings) (av : Bool) (s : TarState) : Option TarState :=
  match s.tape with
  | none => none
  | some entries =>
    let entries := entries ++ [pad s.count ++ cfg.fileExtension]
    if cfg.autoSaveTime > 0 ∧ (s.frames : ℚ) / cfg.framerate ≥ cfg.autoSaveTime then
      let s1 := tarDispose av { s with tape := some entries, saved := s.saved ++ [entries] }
      some { s1 with count := s.count + 1, part := s.part + 1, frames := 0 }
    else
      some { s with tape := some entries, count := s.count + 1, frames := s.frames + 1 }

/-- `k` successive successful `add` completions. -/
def tarAddN (cfg : TarSettings) (av : Bool) (s : TarState) : ℕ → Option TarState
  | 0 => some s
  | k + 1 => (tarAddN cfg av s k).bind (tarAdd cfg av)

/-- `DCTarEncoder.save` (DCTarEncoder.js lines 85-93): when `this.tape` is
null it logs, emits an `error` event and returns without invoking the
callback; otherwise the callback receives the serialized archive.  The
result is the list of emitted error events paired with the artifact handed
to the callback (`none` = callback never invoked). -/
def tarSave (s : TarState) : List String × Option (List String) :=
  match s.tape with
  | none => (["No tape available for saving"], none)
  | some entries => ([], some entries)

/-- All artifacts produced by one session: `start`, `K` successful `add`
completions, `stop`, final `save` — the rotation artifacts followed by the
artifact delivered by the final `save` (if any).  `none` if some `add`
crashed. -/
def sessionArtifacts (cfg : TarSettings) (av : Bool) (K : ℕ) :
    Option (List (List String)) :=
  (tarAddN cfg av (tarStart av tarInit) K).map fun s =>
    s.saved ++ (tarSave s).2.toList

/-- `tarAdd` with the auto-save condition replaced by its integer form, used
to compute with the model: for a positive integer framerate `r` and a natural
`autoSaveTime` `A`, the condition `frames / r ≥ A` is `A * r ≤ frames`
(see `tarAdd_eq_aux`). -/
def tarAddAux (r A : ℕ) (ext : String) (av : Bool) (s : TarState) : Option TarState :=
  match s.tape with
  | none => none
  | some entries =>
    let entries := entries ++ [pad s.count ++ ext]
    if 0 < A ∧ A * r ≤ s.frames then
      let s1 := tarDispose av { s with tape := some entries, saved := s.saved ++ [entries] }
      some { s1 with count := s.count + 1, part := s.part + 1, frames := 0 }
    else
      some { s with tape := some entries, count := s.count + 1, frames := s.frames + 1 }

/-- Iterated `tarAddAux`. -/
def tarAddNAux (r A : ℕ) (ext : String) (av : Bool) (s : TarState) : ℕ → Option TarState
  | 0 => some s
  | k + 1 => (tarAddNAux r A ext av s k).bind (tarAddAux r A ext av)

end DCTar

namespace DCEvents

/-- `DCFrameEncoder.eventListeners`: a dictionary mapping an event name to
the array of registered handlers, in registration order.  Handlers are
identified by natural numbers; a name with no entry maps to the empty
list. -/
def emptyListeners : String → List ℕ := fun _ => []

/-- `DCFrameEncoder.on` (DCFrameEncoder.js lines 363-368): creates the
array for the event if absent and pushes the handler onto it (`on` is a
reserved word in Lean, hence the name `onEvent`). -/
def onEvent (ls : String → List ℕ) (ev : String) (h : ℕ) : String → List ℕ :=
  fun e => if e = ev then ls e ++ [h] else ls e

/-- `DCFrameEncoder.emit` (DCFrameEncoder.js lines 375-379): when listeners
exist for the event, invokes each in array order with the payload; with no
listeners it does nothing.  The result is the list of (handler, payload)
invocations performed. -/
def emit (ls : String → List ℕ) (ev : String) (payload : ℤ) : List (ℕ × ℤ) :=
  (ls ev).map fun h => (h, payload)

/-- A sequence of `on` registrations, applied in order. -/
def onSeq (ls : String → List ℕ) (regs : List (String × ℕ)) : String → List ℕ :=
  regs.foldl (fun acc r => onEvent acc r.1 r.2) ls

end DCEvents

namespace DCEnc

/-- Availability of the ambient backend libraries / platform capabilities
the encoders look up (`Tar`, `Whammy`, `GIF`, `MediaRecorder`). -/
structure Avail where
  tar : Bool
  whammy : Bool
  gifLib : Bool
  mediaRecorder : Bool
deriving DecidableEq

/-- The encoder variants `DCapture.createEncoder` can construct, with the
state each constructor initializes:
* `tarEnc` (`DCPNGEncoder`/`DCJPEGEncoder` over `DCTarEncoder`): the tar
  state plus the file extension configured by the subclass constructor;
* `whammyEnc` (`DCWhammyEncoder`): whether `this.encoder` is non-null;
* `gifEnc` (`DCGIFEncoder`): whether `this.encoder` is non-null;
* `mediaRec` (`DCMediaRecorderEncoder`): the `supported` flag and whether a
  recorder exists. -/
inductive Encoder
  | tarEnc (ts : DCTar.TarState) (ext : String)
  | whammyEnc (created : Bool)
  | gifEnc (created : Bool)
  | mediaRec (supported : Bool) (recorder : Bool)
deriving DecidableEq

/-- `DCapture.createEncoder` (DCapture.js lines 82-114) composed with the
encoder constructors: the format string selects the variant ('webm' and any
unrecognized format fall through to the Whammy encoder).  Only
`DCWhammyEncoder`'s constructor can throw: it throws
`'Whammy is not loaded'` when the library is absent (DCWhammyEncoder
constructor, lines 120-135 of the combined source).  The MediaRecorder
constructor records `supported`; the tar-based and GIF constructors always
succeed. -/
def createEncoder (format : String) (av : Avail) : Except String Encoder :=
  if format = "webm-mediarecorder" then .ok (.mediaRec av.mediaRecorder false)
  else if format = "png" then .ok (.tarEnc DCTar.tarInit ".png")
  else if format = "jpg" ∨ format = "jpeg" then .ok (.tarEnc DCTar.tarInit ".jpg")
  else if format = "gif" then .ok (.gifEnc false)
  else if av.whammy then .ok (.whammyEnc false)
  else .error "Whammy is not loaded"

/-- The `start` method of each encoder variant: the updated state and the
messages emitted through `error` events.
* tar (`DCTarEncoder.start` → `dispose`): emits an `error` event when `Tar`
  is unavailable;
* Whammy (`DCWhammyEncoder.start`): `new Whammy.Video` inside try/catch,
  `error` event on failure;
* GIF (`DCGIFEncoder.start`): checks `typeof GIF`, emits `error` on failure;
* MediaRecorder (`DCMediaRecorderEncoder.start`): emits `error` when the
  platform is unsupported.  None of them throws. -/
def encoderStart (e : Encoder) (av : Avail) : Encoder × List String :=
  match e with
  | .tarEnc ts ext =>
    (.tarEnc (DCTar.tarStart av.tar ts) ext,
      if av.tar then [] else ["Could not create Tar instance"])
  | .whammyEnc _ =>
    if av.whammy then (.whammyEnc true, [])
    else (.whammyEnc false, ["Error starting WebM encoder"])
  | .gifEnc _ =>
    if av.gifLib then (.gifEnc true, [])
    else (.gifEnc false, ["Error starting GIF encoder"])
  | .mediaRec sup _ =>
    if sup then (.mediaRec sup true, [])
    else (.mediaRec sup false, ["MediaRecorder not supported"])

end DCEnc

namespace DCapture

lemma capture_of_stopped (s : Session) (f now : ℕ) (h : s.stopped = true) :
    capture s f now = .ok s := by
  unfold capture
  rw [if_pos h]

lemma captureSeq_of_stopped (l : List (ℕ × ℕ)) (s : Session) (h : s.stopped = true) :
    captureSeq s l = .ok s := by
  induction l with
  | nil => rfl
  | cons p rest ih =>
    unfold captureSeq
    rw [capture_of_stopped s p.1 p.2 h]
    exact ih

/-- One `capture` call on a running session with both limits disabled: the
frame counter advances by one and the frame is forwarded to the encoder. -/
lemma capture_run_nolimits (s : Session) (f now : ℕ) (h1 : s.stopped = false)
    (h2 : s.encoderPresent = true) (hT : s.settings.timeLimit = 0)
    (hF : s.settings.frameLimit = 0) :
    capture s f now = .ok { s with frames := s.frames + 1, addLog := s.addLog ++ [f] } := by
  unfold capture
  rw [if_neg (by rw [h1]; exact Bool.false_ne_true), if_pos h2]
  by_cases hmb : s.settings.motionBlurFrames > 1
  · rw [if_pos hmb]
  · rw [if_neg hmb]
    dsimp only
    rw [hT]
    have hc1 : ¬((0 : ℚ) > 0 ∧ ((now - s.startTime : ℕ) : ℚ) / 1000 ≥ 0) :=
      fun hc => lt_irrefl 0 hc.1
    rw [if_neg hc1]
    dsimp only
    rw [hF]
    rw [if_neg (fun hc => lt_irrefl 0 hc.1)]

lemma captureSeq_nolimits (l : List (ℕ × ℕ)) : ∀ (s : Session),
    s.stopped = false → s.encoderPresent = true →
    s.settings.timeLimit = 0 → s.settings.frameLimit = 0 →
    captureSeq s l =
      .ok { s with frames := s.frames + l.length, addLog := s.addLog ++ l.map Prod.fst } := by
  induction l with
  | nil =>
    intro s h1 h2 hT hF
    simp [captureSeq]
  | cons p rest ih =>
    intro s h1 h2 hT hF
    unfold captureSeq
    rw [capture_run_nolimits s p.1 p.2 h1 h2 hT hF]
    dsimp only
    rw [ih { s with frames := s.frames + 1, addLog := s.addLog ++ [p.1] } h1 h2 hT hF]
    dsimp only
    have hfr : s.frames + 1 + rest.length = s.frames + (p :: rest).length := by
      simp only [List.length_cons]
      omega
    have hlog : (s.addLog ++ [p.1]) ++ rest.map Prod.fst =
        s.addLog ++ (p :: rest).map Prod.fst := by
      simp
    rw [hfr, hlog]

/-- One `capture` call on a running session with `timeLimit = 0`,
`frameLimit = F > 0` and the motion-blur path disabled: the frame is
forwarded; when the new frame count reaches `F` the session stops itself and
schedules one save. -/
lemma capture_run_framelimit (s : Session) (f now F : ℕ) (h1 : s.stopped = false)
    (h2 : s.encoderPresent = true) (hT : s.settings.timeLimit = 0)
    (hF : s.settings.frameLimit = F) (hFpos : 0 < F)
    (hmb : s.settings.motionBlurFrames ≤ 1) :
    capture s f now = .ok (
      if s.frames + 1 ≥ F then
        { s with frames := s.frames + 1, addLog := s.addLog ++ [f],
                 stopped := true, savesScheduled := s.savesScheduled + 1 }
      else
        { s with frames := s.frames + 1, addLog := s.addLog ++ [f] }) := by
  unfold capture
  rw [if_neg (by rw [h1]; exact Bool.false_ne_true), if_pos h2]
  rw [if_neg (by omega : ¬s.settings.motionBlurFrames > 1)]
  dsimp only
  rw [hT]
  have hc1 : ¬((0 : ℚ) > 0 ∧ ((now - s.startTime : ℕ) : ℚ) / 1000 ≥ 0) :=
    fun hc => lt_irrefl 0 hc.1
  rw [if_neg hc1]
  dsimp only
  rw [hF]
  by_cases hge : s.frames + 1 ≥ F
  · rw [if_pos ⟨hFpos, hge⟩, if_pos hge]
  · rw [if_neg (fun hc => hge hc.2), if_neg hge]

/-- A run of `capture` calls against a pure frame limit `F`: while fewer than
`F` frames have been captured in total the session keeps running; as soon as
the `F`-th frame is captured the session stops, schedules exactly one save,
and all later calls are ignored. -/
lemma captureSeq_framelimit (F : ℕ) (hFpos : 0 < F) (l : List (ℕ × ℕ)) :
    ∀ (s : Session),
    s.stopped = false → s.encoderPresent = true →
    s.settings.timeLimit = 0 → s.settings.frameLimit = F →
    s.settings.motionBlurFrames ≤ 1 → s.savesScheduled = 0 → s.frames < F →
    captureSeq s l = .ok (
      if s.frames + l.length < F then
        { s with frames := s.frames + l.length, addLog := s.addLog ++ l.map Prod.fst }
      else
        { s with frames := F, stopped := true, savesScheduled := 1,
                 addLog := s.addLog ++ (l.take (F - s.frames)).map Prod.fst }) := by
  induction l with
  | nil =>
    intro s h1 h2 hT hF hmb hsv hfrm
    rw [if_pos (by simp only [List.length_nil, Nat.add_zero]; exact hfrm)]
    simp [captureSeq]
  | cons p rest ih =>
    intro s h1 h2 hT hF hmb hsv hfrm
    unfold captureSeq
    rw [capture_run_framelimit s p.1 p.2 F h1 h2 hT hF hFpos hmb]
    by_cases hge : s.frames + 1 ≥ F
    · rw [if_pos hge]
      dsimp only
      rw [captureSeq_of_stopped rest _ rfl]
      rw [if_neg (by simp only [List.length_cons]; omega)]
      have hfe : s.frames + 1 = F := by omega
      have htake : F - s.frames = 1 := by omega
      have htk : (p :: rest).take 1 = [p] := rfl
      rw [htake, htk, List.map_singleton, hfe, hsv, Nat.zero_add]
    · rw [if_neg hge]
      dsimp only
      rw [ih { s with frames := s.frames + 1, addLog := s.addLog ++ [p.1] } h1 h2 hT hF
        hmb hsv (by dsimp only; omega)]
      dsimp only
      by_cases hlen : s.frames + 1 + rest.length < F
      · rw [if_pos hlen, if_pos (by simp only [List.length_cons]; omega)]
        have hfr2 : s.frames + 1 + rest.length = s.frames + (p :: rest).length := by
          simp only [List.length_cons]
          omega
        have hlog : (s.addLog ++ [p.1]) ++ rest.map Prod.fst =
            s.addLog ++ (p :: rest).map Prod.fst := by
          simp
        rw [hfr2, hlog]
      · rw [if_neg hlen, if_neg (by simp only [List.length_cons]; omega)]
        have htk2 : (p :: rest).take (F - s.frames) =
            p :: rest.take (F - (s.frames + 1)) := by
          have hsplit : F - s.frames = (F - (s.frames + 1)) + 1 := by omega
          rw [hsplit, List.take_succ_cons]
        have hlog : (s.addLog ++ [p.1]) ++ (rest.take (F - (s.frames + 1))).map Prod.fst =
            s.addLog ++ ((p :: rest).take (F - s.frames)).map Prod.fst := by
          rw [htk2, List.map_cons]
          simp
        rw [hlog]

/-- `capture` never throws while an encoder exists: the only `throw` in it
is the missing-encoder check. -/
lemma capture_encoder_present_not_error (s : Session) (f now : ℕ) :
    isError (capture { s with encoderPresent := true } f now) = false := by
  unfold capture
  dsimp only
  by_cases h : s.stopped = true
  · rw [if_pos h]
    rfl
  · rw [if_neg h, if_pos rfl]
    split
    · rfl
    · rfl

end DCapture

namespace DCTar

lemma tarAdd_eq_aux (r A : ℕ) (hr : 0 < r) (ext : String) (av : Bool) (s : TarState) :
    tarAdd ⟨(r : ℚ), (A : ℚ), ext⟩ av s = tarAddAux r A ext av s := by
  have hrq : (0 : ℚ) < (r : ℚ) := by exact_mod_cast hr
  have hcond : ((A : ℚ) > 0 ∧ (s.frames : ℚ) / (r : ℚ) ≥ (A : ℚ)) ↔
      (0 < A ∧ A * r ≤ s.frames) := by
    constructor
    · rintro ⟨h1, h2⟩
      refine ⟨by exact_mod_cast h1, ?_⟩
      rw [ge_iff_le, le_div_iff₀ hrq] at h2
      exact_mod_cast h2
    · rintro ⟨h1, h2⟩
      refine ⟨by exact_mod_cast h1, ?_⟩
      rw [ge_iff_le, le_div_iff₀ hrq]
      exact_mod_cast h2
  unfold tarAdd tarAddAux
  cases s.tape with
  | none => rfl
  | some entries =>
    dsimp only
    by_cases h : 0 < A ∧ A * r ≤ s.frames
    · rw [if_pos (hcond.mpr h), if_pos h]
    · rw [if_neg (fun hc => h (hcond.mp hc)), if_neg h]

lemma tarAddN_eq_aux (r A : ℕ) (hr : 0 < r) (ext : String) (av : Bool) (s : TarState)
    (k : ℕ) :
    tarAddN ⟨(r : ℚ), (A : ℚ), ext⟩ av s k = tarAddNAux r A ext av s k := by
  induction k with
  | zero => rfl
  | succ k ih =>
    unfold tarAddN tarAddNAux
    rw [ih]
    cases tarAddNAux r A ext av s k with
    | none => rfl
    | some s1 => exact tarAdd_eq_aux r A hr ext av s1

lemma succ_mod_div_of_eq {k m : ℕ} (hm : 0 < m) (h : k % m = m - 1) :
    (k + 1) % m = 0 ∧ (k + 1) / m = k / m + 1 := by
  have h2 : k + 1 = m * (k / m + 1) := by
    rw [Nat.mul_succ]
    conv_lhs => rw [← Nat.div_add_mod k m]
    omega
  constructor
  · rw [h2, Nat.mul_mod_right]
  · rw [h2, Nat.mul_div_cancel_left _ hm]

lemma succ_mod_div_of_ne {k m : ℕ} (hm : 0 < m) (h : k % m ≠ m - 1) :
    (k + 1) % m = k % m + 1 ∧ (k + 1) / m = k / m := by
  have hlt : k % m < m := Nat.mod_lt _ hm
  have hlt2 : k % m + 1 < m := by omega
  have h2 : k + 1 = m * (k / m) + (k % m + 1) := by
    conv_lhs => rw [← Nat.div_add_mod k m]
    rw [Nat.add_assoc]
  constructor
  · rw [h2, Nat.mul_add_mod, Nat.mod_eq_of_lt hlt2]
  · rw [h2, Nat.mul_add_div hm, Nat.div_eq_of_lt hlt2, Nat.add_zero]

/-- Closed form of a `DCTarEncoder` run with auto-save disabled
(`autoSaveTime = 0`, its default): after `start` and `k` successful `add`
completions, the archive holds the entries `pad 0 ++ ext` … `pad (k-1) ++ ext`
in order, the counters equal `k`, the part counter is still 1, and no
auto-save artifact was produced. -/
lemma tarAddN_zero_closed (r : ℚ) (ext : String) (k : ℕ) :
    tarAddN ⟨r, 0, ext⟩ true (tarStart true tarInit) k =
      some { tape := some ((List.range k).map fun i => pad i ++ ext),
             count := k, part := 1, frames := k, saved := [] } := by
  induction k with
  | zero => simp [tarAddN, tarStart, tarDispose, tarInit]
  | succ k ih =>
    unfold tarAddN
    rw [ih, Option.some_bind]
    unfold tarAdd
    dsimp only
    rw [if_neg (fun hc => lt_irrefl (0 : ℚ) hc.1)]
    simp [List.range_succ]

/-- Closed form of a `DCTarEncoder` run with auto-save enabled: with an
integer framerate `r > 0` and an integer `autoSaveTime = A > 0`, writing
`m = A*r + 1`, after `start` and `k` successful `add` completions the encoder
has delivered `k / m` rotation artifacts holding `m` consecutively numbered
entries each (part `j` holds entries `j*m` … `j*m + m - 1`), and the current
archive holds the next `k % m` entries.  The rotation check fires one frame
later than `autoSaveTime * framerate` because `frames` is compared before
being incremented, and the entry counter is carried across rotations. -/
lemma tarAddNAux_closed (r A : ℕ) (hA : 0 < A) (ext : String) (k : ℕ) :
    tarAddNAux r A ext true (tarStart true tarInit) k =
      some { tape := some ((List.range (k % (A * r + 1))).map
                      fun i => pad (k / (A * r + 1) * (A * r + 1) + i) ++ ext),
             count := k,
             part := k / (A * r + 1) + 1,
             frames := k % (A * r + 1),
             saved := (List.range (k / (A * r + 1))).map
                      fun j => (List.range (A * r + 1)).map
                        fun i => pad (j * (A * r + 1) + i) ++ ext } := by
  set m := A * r + 1 with hmdef
  have hm : 0 < m := by omega
  clear_value m
  induction k with
  | zero => simp [tarAddNAux, tarStart, tarDispose, tarInit]
  | succ k ih =>
    unfold tarAddNAux
    rw [ih, Option.some_bind]
    unfold tarAddAux
    dsimp only
    have hlt : k % m < m := Nat.mod_lt _ hm
    have hk : k / m * m + k % m = k := Nat.div_add_mod' k m
    by_cases hcase : k % m = m - 1
    · have hcond : 0 < A ∧ A * r ≤ k % m := ⟨hA, by omega⟩
      rw [if_pos hcond]
      obtain ⟨hmod, hdiv⟩ := succ_mod_div_of_eq hm hcase
      rw [hmod, hdiv]
      have hrange : List.range m = List.range (k % m) ++ [k % m] := by
        conv_lhs => rw [show m = k % m + 1 by omega]
        rw [List.range_succ]
      have hentries :
          ((List.range (k % m)).map (fun i => pad (k / m * m + i) ++ ext)) ++
              [pad k ++ ext] =
            (List.range m).map (fun i => pad (k / m * m + i) ++ ext) := by
        rw [hrange]
        simp only [List.map_append, List.map_singleton]
        rw [hk]
      rw [show tarDispose true = fun s => { s with tape := some [], count := 0 } from rfl]
      dsimp only
      rw [List.range_zero, List.map_nil, List.range_succ, List.map_append,
        List.map_singleton]
      rw [← hentries]
    · have hcond : ¬(0 < A ∧ A * r ≤ k % m) := by
        rintro ⟨-, hc⟩
        omega
      rw [if_neg hcond]
      obtain ⟨hmod, hdiv⟩ := succ_mod_div_of_ne hm hcase
      rw [hmod, hdiv]
      rw [List.range_succ, List.map_append, List.map_singleton]
      rw [hk]

/-- The closed form transported to the real `tarAddN`. -/
lemma tarAddN_closed (r A : ℕ) (hA : 0 < A) (hr : 0 < r) (ext : String) (k : ℕ) :
    tarAddN ⟨(r : ℚ), (A : ℚ), ext⟩ true (tarStart true tarInit) k =
      some { tape := some ((List.range (k % (A * r + 1))).map
                      fun i => pad (k / (A * r + 1) * (A * r + 1) + i) ++ ext),
             count := k,
             part := k / (A * r + 1) + 1,
             frames := k % (A * r + 1),
             saved := (List.range (k / (A * r + 1))).map
                      fun j => (List.range (A * r + 1)).map
                        fun i => pad (j * (A * r + 1) + i) ++ ext } := by
  rw [tarAddN_eq_aux r A hr ext true _ k]
  exact tarAddNAux_closed r A hA ext k

/-- With the `Tar` library available, a run of `k` successful `add`
completions from `start` always succeeds, and — for arbitrary rational
`framerate` and `autoSaveTime`, so across any pattern of auto-save
rotations — the entry counter equals `k`, the current tape holds the
consecutively numbered entries of the current part (starting at the counter
value `c0` the part began with), and every saved part consists of
consecutively numbered entries.  Both `add` branches append `pad count` and
advance the counter by exactly one, and a rotation moves the whole current
entry list into `saved`, which is why no gaps can appear inside any part. -/
lemma tarAddN_parts_consecutive (cfg : TarSettings) : ∀ (k : ℕ),
    ∃ s, tarAddN cfg true (tarStart true tarInit) k = some s ∧
      s.count = k ∧
      ∃ c0, c0 ≤ k ∧
        s.tape = some ((List.range (k - c0)).map
          fun i => pad (c0 + i) ++ cfg.fileExtension) ∧
        ∀ p ∈ s.saved, ∃ c,
          p = (List.range p.length).map fun i => pad (c + i) ++ cfg.fileExtension := by
  intro k
  induction k with
  | zero =>
    refine ⟨tarStart true tarInit, rfl, rfl, 0, le_refl 0, rfl, ?_⟩
    intro p hp
    exact absurd hp (List.not_mem_nil p)
  | succ k ih =>
    obtain ⟨s, hs, hcount, c0, hc0, htape, hsaved⟩ := ih
    have hent : (List.range (k - c0)).map (fun i => pad (c0 + i) ++ cfg.fileExtension)
          ++ [pad k ++ cfg.fileExtension] =
        (List.range (k - c0 + 1)).map (fun i => pad (c0 + i) ++ cfg.fileExtension) := by
      rw [List.range_succ, List.map_append, List.map_singleton,
        show c0 + (k - c0) = k from by omega]
    unfold tarAddN
    rw [hs, Option.some_bind]
    unfold tarAdd
    rw [htape, hcount]
    dsimp only
    by_cases hcond : cfg.autoSaveTime > 0 ∧
        (s.frames : ℚ) / cfg.framerate ≥ cfg.autoSaveTime
    · rw [if_pos hcond]
      rw [show tarDispose true = fun st => { st with tape := some [], count := 0 } from rfl]
      dsimp only
      refine ⟨_, rfl, rfl, k + 1, le_refl _, ?_, ?_⟩
      · rw [Nat.sub_self]
        rfl
      · intro p hp
        rcases List.mem_append.mp hp with hp1 | hp2
        · exact hsaved p hp1
        · rw [List.mem_singleton] at hp2
          subst hp2
          refine ⟨c0, ?_⟩
          have hlen : ((List.range (k - c0)).map
                (fun i => pad (c0 + i) ++ cfg.fileExtension)
              ++ [pad k ++ cfg.fileExtension]).length = k - c0 + 1 := by
            simp
          rw [hlen]
          exact hent
    · rw [if_neg hcond]
      refine ⟨_, rfl, rfl, c0, by omega, ?_, ?_⟩
      · rw [show k + 1 - c0 = (k - c0) + 1 from by omega, hent]
      · exact hsaved

end DCTar

namespace DCEvents

lemma onSeq_apply (regs : List (String × ℕ)) : ∀ (ls : String → List ℕ) (ev : String),
    onSeq ls regs ev = ls ev ++ (regs.filter (fun r => r.1 == ev)).map Prod.snd := by
  induction regs with
  | nil =>
    intro ls ev
    simp [onSeq]
  | cons r rest ih =>
    intro ls ev
    show onSeq (onEvent ls r.1 r.2) rest ev = _
    rw [ih, List.filter_cons]
    by_cases he : ev = r.1
    · simp [onEvent, he]
    · simp [onEvent, he, Ne.symm he]

end DCEvents

open DCapture DCTar DCEvents DCEnc

/-- C1: for every session constructed with `timeLimit = 0` and
`frameLimit = 0`, after any sequence of `N` `capture(frame)` calls following
`start()` the session's frame counter equals `N`, and the encoder's `add`
has been invoked exactly `N` times with exactly the captured frames in call
order (the `addLog` field records the arguments of the `encoder.add` calls
in order). -/
theorem C1_capture_counter_and_add_order (st : CaptureSettings) (l : List (ℕ × ℕ))
    (n0 : ℕ) (hT : st.timeLimit = 0) (hF : st.frameLimit = 0) :
    captureSeq (start (mkSession st) n0) l =
      .ok { settings := st, startTime := n0, frames := l.length, stopped := false,
            encoderPresent := true, addLog := l.map Prod.fst, savesScheduled := 0 } := by
  have h := captureSeq_nolimits l (start (mkSession st) n0) rfl rfl hT hF
  simpa [start, mkSession] using h

/-- Witness for C1 at a concrete input: two captures with the default
settings (`timeLimit = 0`, `frameLimit = 0`). -/
theorem C1_capture_counter_and_add_order_witness :
    captureSeq (start (mkSession {}) 5) [(3, 6), (4, 7)] =
      .ok { settings := {}, startTime := 5, frames := 2, stopped := false,
            encoderPresent := true, addLog := [3, 4], savesScheduled := 0 } :=
  C1_capture_counter_and_add_order {} [(3, 6), (4, 7)] 5 rfl rfl

/-- C7: once `stop()` has set the stopped flag, any subsequent `capture`
call — and any sequence of them — returns the state unchanged: the frame
counter never changes again and no frame is ever forwarded to the encoder,
even while stop's asynchronous completion is still pending (the flag is set
synchronously, before the encoder's async stop resolves). -/
theorem C7_capture_noop_after_stop (s : Session) (f now : ℕ) (l : List (ℕ × ℕ)) :
    capture (stopSync s) f now = .ok (stopSync s) ∧
    captureSeq (stopSync s) l = .ok (stopSync s) :=
  ⟨capture_of_stopped _ f now rfl, captureSeq_of_stopped l _ rfl⟩

/-- C9: after `dispose()`, `capture` throws `'No encoder available'` when
`stop()` was never called, but returns silently when the session was stopped
before disposal — the stopped check comes before the missing-encoder
check. -/
theorem C9_capture_after_dispose (s : Session) (f now : ℕ) :
    capture (dispose s) f now =
      (if s.stopped then .ok (dispose s) else .error "No encoder available") := by
  unfold capture dispose
  dsimp only
  by_cases h : s.stopped = true
  · rw [if_pos h, if_pos h]
  · rw [if_neg h, if_neg h, if_neg Bool.false_ne_true]

/-- C8: any number of handlers may be registered per event kind via `on`;
`emit` invokes exactly the handlers registered for that event kind, in
registration order, each with the emitted payload; and emitting an event
kind with no registered handlers performs no invocation (and, being a total
function, does not throw). -/
theorem C8_on_emit_order (regs : List (String × ℕ)) (ev : String) (p : ℤ)
    (ls : String → List ℕ) (e2 : String) (h : ℕ) :
    emit (onSeq emptyListeners regs) ev p =
      ((regs.filter (fun r => r.1 == ev)).map Prod.snd).map (fun hd => (hd, p)) ∧
    emit emptyListeners ev p = [] ∧
    onEvent ls e2 h e2 = ls e2 ++ [h] := by
  refine ⟨?_, rfl, ?_⟩
  · unfold emit
    rw [onSeq_apply]
    simp [emptyListeners]
  · unfold onEvent
    rw [if_pos rfl]

/-- C6: calling the tar encoder's `save(callback)` when no archive exists
(`start` never ran, so the tape is still null — the freshly constructed
state, or any state with a null tape) emits exactly one `error` event,
returns normally instead of throwing, and never invokes the callback with an
artifact. -/
theorem C6_save_without_start (s : TarState) :
    tarSave tarInit = (["No tape available for saving"], none) ∧
    tarSave { s with tape := none } = (["No tape available for saving"], none) :=
  ⟨rfl, rfl⟩

/-- C2 fails as stated, in two ways: (a) when `motionBlurFrames > 1` is also
configured, `capture` goes through `captureMotionBlur`, which performs no
limit checks at all, so a session with `frameLimit = 1` does not stop or save
upon its first (the `F`-th) capture call; (b) when a positive `timeLimit` is
also configured, the session stops and schedules a save on an earlier call
than the `F`-th (here on call 1 with `frameLimit = 5`). -/
theorem C2_counterexample :
    (captureSeq (start (mkSession { motionBlurFrames := 2, frameLimit := 1 }) 0) [(0, 0)] =
      .ok { settings := { motionBlurFrames := 2, frameLimit := 1 }, startTime := 0,
            frames := 1, stopped := false, encoderPresent := true, addLog := [0],
            savesScheduled := 0 }) ∧
    (captureSeq (start (mkSession { timeLimit := 1, frameLimit := 5 }) 0) [(0, 2000)] =
      .ok { settings := { timeLimit := 1, frameLimit := 5 }, startTime := 0,
            frames := 1, stopped := true, encoderPresent := true, addLog := [0],
            savesScheduled := 1 }) := by
  constructor
  · decide
  · have hcap : capture (start (mkSession { timeLimit := 1, frameLimit := 5 }) 0) 0 2000 =
        .ok { settings := { timeLimit := 1, frameLimit := 5 }, startTime := 0, frames := 1,
              stopped := true, encoderPresent := true, addLog := [0], savesScheduled := 1 } := by
      unfold capture start mkSession
      dsimp only
      rw [if_neg Bool.false_ne_true, if_pos rfl, if_neg (by decide : ¬((0 : ℕ) > 1))]
      rw [if_pos (⟨by norm_num, by norm_num⟩ :
        ((1 : ℚ) > 0 ∧ ((2000 - 0 : ℕ) : ℚ) / 1000 ≥ 1))]
      rw [if_neg (by decide : ¬((5 : ℕ) > 0 ∧ (1 : ℕ) ≥ 5))]
      simp
    unfold captureSeq
    rw [hcap]
    rfl

/-- C2 (amended): for every session configured with `frameLimit = F > 0`
whose other stop conditions cannot interfere (`timeLimit = 0` and
`motionBlurFrames ≤ 1`, since the motion-blur path skips the limit checks),
the session auto-stops and schedules exactly one auto-save upon the `F`-th
capture call: no earlier call stops or saves, and no call after the `F`-th
has any effect on the counter or the encoder. -/
theorem C2_framelimit_autostop_amended (st : CaptureSettings) (F n0 : ℕ)
    (l : List (ℕ × ℕ)) (hF : st.frameLimit = F) (hFpos : 0 < F)
    (hT : st.timeLimit = 0) (hmb : st.motionBlurFrames ≤ 1) :
    captureSeq (start (mkSession st) n0) l = .ok (
      if l.length < F then
        { settings := st, startTime := n0, frames := l.length, stopped := false,
          encoderPresent := true, addLog := l.map Prod.fst, savesScheduled := 0 }
      else
        { settings := st, startTime := n0, frames := F, stopped := true,
          encoderPresent := true, addLog := (l.take F).map Prod.fst,
          savesScheduled := 1 }) := by
  have h := captureSeq_framelimit F hFpos l (start (mkSession st) n0) rfl rfl hT hF hmb
    rfl (by exact hFpos)
  simpa [start, mkSession] using h

/-- Witness for C2 (amended): `frameLimit = 1`, two captures — the first
stops and saves, the second is ignored. -/
theorem C2_framelimit_autostop_amended_witness :
    captureSeq (start (mkSession { frameLimit := 1 }) 0) [(9, 0), (8, 0)] = .ok (
      if List.length [((9 : ℕ), (0 : ℕ)), (8, 0)] < 1 then
        { settings := { frameLimit := 1 }, startTime := 0,
          frames := List.length [((9 : ℕ), (0 : ℕ)), (8, 0)], stopped := false,
          encoderPresent := true,
          addLog := List.map Prod.fst [((9 : ℕ), (0 : ℕ)), (8, 0)], savesScheduled := 0 }
      else
        { settings := { frameLimit := 1 }, startTime := 0, frames := 1, stopped := true,
          encoderPresent := true,
          addLog := List.map Prod.fst (List.take 1 [((9 : ℕ), (0 : ℕ)), (8, 0)]),
          savesScheduled := 1 }) :=
  C2_framelimit_autostop_amended { frameLimit := 1 } 1 0 [(9, 0), (8, 0)] rfl
    (by decide) rfl (by decide)

/-- C3 fails as stated: with `framerate = 1`, `autoSaveTime = 1` and `K = 3`
captured frames, the session produces 2 artifacts, not the claimed
`⌈(K / framerate) / autoSaveTime⌉ = 3`.  The rotation check compares the
per-part frame count before incrementing it, so each auto-saved part holds
`autoSaveTime·framerate + 1` frames, not `autoSaveTime·framerate`. -/
theorem C3_counterexample :
    (sessionArtifacts ⟨1, 1, ""⟩ true 3).map List.length = some 2 ∧
    (sessionArtifacts ⟨1, 1, ""⟩ true 3).map List.length ≠ some 3 := by
  have h : sessionArtifacts ⟨((1 : ℕ) : ℚ), ((1 : ℕ) : ℚ), ""⟩ true 3 =
      some [["000000", "000001"], ["000002"]] := by
    unfold sessionArtifacts
    rw [tarAddN_eq_aux 1 1 one_pos "" true (tarStart true tarInit) 3]
    decide
  rw [Nat.cast_one] at h
  rw [h]
  exact ⟨rfl, by decide⟩

/-- C3 (amended): for an archive-based session with integer framerate
`r > 0`, starting, capturing `K ≥ 1` frames, stopping and saving yields
exactly one artifact when `autoSaveTime = 0`, and exactly
`K / (autoSaveTime·framerate + 1) + 1` artifacts (integer division) when
`autoSaveTime = A > 0` — the rotations produce `K / (A·r + 1)` artifacts
because each part holds `A·r + 1` frames, and the final `save` always
delivers one more (possibly empty) artifact.  In particular the count is
never zero. -/
theorem C3_artifact_count_amended (r A K : ℕ) (rq : ℚ) (ext : String)
    (hA : 0 < A) (hr : 0 < r) (hK : 1 ≤ K) :
    (sessionArtifacts ⟨(r : ℚ), (A : ℚ), ext⟩ true K).map List.length =
      some (K / (A * r + 1) + 1) ∧
    (sessionArtifacts ⟨rq, 0, ext⟩ true K).map List.length = some 1 ∧
    0 < K / (A * r + 1) + 1 := by
  refine ⟨?_, ?_, Nat.succ_pos _⟩
  · unfold sessionArtifacts
    rw [tarAddN_closed r A hA hr ext K]
    simp [tarSave]
  · unfold sessionArtifacts
    rw [tarAddN_zero_closed rq ext K]
    simp [tarSave]

/-- Witness for C3 (amended) at `r = 1`, `A = 1`, `K = 3`: two artifacts
with auto-save on, one with auto-save off. -/
theorem C3_artifact_count_amended_witness :
    (sessionArtifacts ⟨((1 : ℕ) : ℚ), ((1 : ℕ) : ℚ), ""⟩ true 3).map List.length =
      some (3 / (1 * 1 + 1) + 1) ∧
    (sessionArtifacts ⟨(60 : ℚ), 0, ""⟩ true 3).map List.length = some 1 ∧
    0 < 3 / (1 * 1 + 1) + 1 :=
  C3_artifact_count_amended 1 1 3 60 "" (by decide) (by decide) (by decide)

/-- C5: archive entry names.  (i) For *every* sequence of `k` successful
`add` completions, under arbitrary settings — any rational `framerate` and
`autoSaveTime`, so across any pattern of auto-save rotations — the current
archive part holds the consecutively numbered entries
`pad c0 ++ ext, pad (c0+1) ++ ext, …` of the part it is in, and every saved
part likewise consists of consecutively numbered entries: names are strictly
increasing with no gaps within one archive part.  (ii) With auto-save
disabled (one part for the whole run) the entries after `k` adds are exactly
`pad 0 ++ ext … pad (k-1) ++ ext`.  (iii) `pad` zero-pads the decimal form
to 6 digits: `(pad n).length = max 6 (toString n).length`, so every counter
below 10^6 yields a 6-character name.  (iv) The concrete scenario: format
`png`, rate 10, 3 same-size captures → exactly the 3 entries
`000000.png`, `000001.png`, `000002.png`. -/
theorem C5_entry_names_sequential (cfg : TarSettings) (r : ℚ) (ext : String) (k : ℕ) :
    (∃ s, tarAddN cfg true (tarStart true tarInit) k = some s ∧
      s.count = k ∧
      ∃ c0, c0 ≤ k ∧
        s.tape = some ((List.range (k - c0)).map
          fun i => pad (c0 + i) ++ cfg.fileExtension) ∧
        ∀ p ∈ s.saved, ∃ c,
          p = (List.range p.length).map fun i => pad (c + i) ++ cfg.fileExtension) ∧
    ((tarAddN ⟨r, 0, ext⟩ true (tarStart true tarInit) k).map fun s => s.tape) =
      some (some ((List.range k).map fun i => pad i ++ ext)) ∧
    (∀ n : ℕ, (pad n).length = max 6 (toString n).length) ∧
    ((tarAddN ⟨10, 0, ".png"⟩ true (tarStart true tarInit) 3).map fun s => s.tape) =
      some (some ["000000.png", "000001.png", "000002.png"]) := by
  refine ⟨tarAddN_parts_consecutive cfg k, ?_, ?_, by decide⟩
  · rw [tarAddN_zero_closed r ext k]
    rfl
  · intro n
    unfold pad
    dsimp only
    by_cases h : (toString n).length ≥ 6
    · rw [if_pos h]
      omega
    · rw [if_neg h]
      rw [String.length_append]
      have hmk : (String.mk (List.replicate (6 - (toString n).length) '0')).length =
          6 - (toString n).length := by
        show (List.replicate (6 - (toString n).length) '0').length = _
        rw [List.length_replicate]
      rw [hmk]
      omega

/-- C10: after `k` auto-saving `add`s (integer `framerate = r > 0`,
`autoSaveTime = A > 0`, `m = A·r + 1`) the entry-name counter equals `k` —
it is never reset by a rotation — saved part `j` (0-based) holds exactly the
entries `pad (j·m) ++ ext … pad (j·m + m - 1) ++ ext`, and the current tape
continues at `pad ((k/m)·m) ++ ext`: the first entry of each new part is the
previous counter value plus one, names increase strictly across parts, and
no part after the first begins at `pad 0` (its first index `j·m ≥ m ≥ 2` for
`j ≥ 1`).  The concrete instance (`A = r = 1`, `k = 5`) shows part 2
starting at `000002`, not `000000`. -/
theorem C10_rotation_keeps_counter (r A : ℕ) (ext : String) (hA : 0 < A)
    (hr : 0 < r) (k : ℕ) :
    ((tarAddN ⟨(r : ℚ), (A : ℚ), ext⟩ true (tarStart true tarInit) k).map
        fun s => (s.count, s.saved, s.tape)) =
      some (k,
        (List.range (k / (A * r + 1))).map (fun j =>
          (List.range (A * r + 1)).map fun i => pad (j * (A * r + 1) + i) ++ ext),
        some ((List.range (k % (A * r + 1))).map fun i =>
          pad (k / (A * r + 1) * (A * r + 1) + i) ++ ext)) ∧
    ((tarAddN ⟨((1 : ℕ) : ℚ), ((1 : ℕ) : ℚ), ""⟩ true (tarStart true tarInit) 5).map
        fun s => (s.saved, s.tape)) =
      some ([["000000", "000001"], ["000002", "000003"]], some ["000004"]) := by
  constructor
  · rw [tarAddN_closed r A hA hr ext k]
    rfl
  · rw [tarAddN_eq_aux 1 1 one_pos "" true (tarStart true tarInit) 5]
    decide

/-- Witness for C10 at `r = A = 1`, `k = 5`. -/
theorem C10_rotation_keeps_counter_witness :
    ((tarAddN ⟨((1 : ℕ) : ℚ), ((1 : ℕ) : ℚ), ""⟩ true (tarStart true tarInit) 5).map
        fun s => (s.count, s.saved, s.tape)) =
      some (5,
        (List.range (5 / (1 * 1 + 1))).map (fun j =>
          (List.range (1 * 1 + 1)).map fun i => pad (j * (1 * 1 + 1) + i) ++ ""),
        some ((List.range (5 % (1 * 1 + 1))).map fun i =>
          pad (5 / (1 * 1 + 1) * (1 * 1 + 1) + i) ++ "")) ∧
    ((tarAddN ⟨((1 : ℕ) : ℚ), ((1 : ℕ) : ℚ), ""⟩ true (tarStart true tarInit) 5).map
        fun s => (s.saved, s.tape)) =
      some ([["000000", "000001"], ["000002", "000003"]], some ["000004"]) :=
  C10_rotation_keeps_counter 1 1 "" (by decide) (by decide) 5

/-- C4 fails as stated: with format `'webm'` (the default) and the Whammy
library unavailable, the `DCWhammyEncoder` constructor throws
`'Whammy is not loaded'` out of session construction — no `error` event is
fired. -/
theorem C4_counterexample :
    createEncoder "webm"
        { tar := true, whammy := false, gifLib := true, mediaRecorder := true } =
      .error "Whammy is not loaded" := by
  decide

/-- C4 (amended): for every format other than the software-WebM fallthrough
(`'webm'` and unrecognized strings), construction never throws whatever the
backend availability; when the chosen backend is unavailable the failure is
reported through an `error` event at `start` (`'Could not create Tar
instance'`, `'Error starting GIF encoder'`, `'MediaRecorder not
supported'`); and `capture` on a session holding an encoder never throws.
The software-WebM encoder instead throws at construction when Whammy is
missing (see the counterexample). -/
theorem C4_backend_unavailable_amended (av : Avail) (s : Session) (f now : ℕ) :
    createEncoder "png" av = .ok (.tarEnc DCTar.tarInit ".png") ∧
    createEncoder "jpg" av = .ok (.tarEnc DCTar.tarInit ".jpg") ∧
    createEncoder "jpeg" av = .ok (.tarEnc DCTar.tarInit ".jpg") ∧
    createEncoder "gif" av = .ok (.gifEnc false) ∧
    createEncoder "webm-mediarecorder" av = .ok (.mediaRec av.mediaRecorder false) ∧
    (encoderStart (.tarEnc DCTar.tarInit ".png") { av with tar := false }).2 =
      ["Could not create Tar instance"] ∧
    (encoderStart (.gifEnc false) { av with gifLib := false }).2 =
      ["Error starting GIF encoder"] ∧
    (encoderStart (.mediaRec false false) av).2 = ["MediaRecorder not supported"] ∧
    isError (capture { s with encoderPresent := true } f now) = false :=
  ⟨rfl, rfl, rfl, rfl, rfl, rfl, rfl, rfl, capture_encoder_present_not_error s f now⟩
